import Mathlib

/-!
Verification of the incremental synchronization pipeline of the
unified-vqa-dataset repository (`unified_vqa_processor.py` and
`unified_vqa_datasets_parquet.py`).

The Python source is shallowly embedded below:
pure loops become structurally recursive Lean functions, the filesystem is
modelled as an explicit directory tree carrying the operating system's
enumeration order, and remote calls (the Hugging Face API, `create_commit`)
are modelled by outcome oracles passed in as arguments.
-/

/-! ## Constants from the source (`unified_vqa_processor.py`) -/

/-- IMAGE_EXTENSIONS (line 23 of `unified_vqa_processor.py`, line 27 of
`unified_vqa_datasets_parquet.py`): the image-extension allowlist. -/
def IMAGE_EXTENSIONS : List String := [".jpg", ".jpeg", ".png", ".gif", ".bmp", ".webp"]

/-- BATCH_SIZE (line 114): number of files per upload commit. -/
def BATCH_SIZE : Nat := 500

/-- The retry loop `for attempt in range(3)` (line 129) makes at most 3 attempts. -/
def MAX_RETRIES : Nat := 3

/-- `time.sleep(5)` (line 142): the fixed backoff delay, in seconds. -/
def RETRY_DELAY : Nat := 5

/-! ## Diff planner (lines 87-103 of `unified_vqa_processor.py`) -/

/-- A local file as seen by `upload_to_huggingface_incremental`.  The Python
code holds an absolute `Path` and derives
`rel_path = f.relative_to(CURRENT_DIR).as_posix()`; we carry the derived
forward-slash relative path directly, which is the only attribute the
planner reads. -/
structure LocalFile where
  relPath : String
deriving DecidableEq

/-- Lines 87-98: the skip/upload loop.

```
files_to_upload = []
skipped_count = 0
for f in image_files:
    rel_path = f.relative_to(CURRENT_DIR).as_posix()
    if rel_path in remote_files:
        skipped_count += 1
    else:
        files_to_upload.append(f)
```

Returns `(files_to_upload, skipped_count)`. -/
def diffPlan (image_files : List LocalFile) (remote_files : List String) :
    List LocalFile × Nat :=
  match image_files with
  | [] => ([], 0)
  | f :: rest =>
    let acc := diffPlan rest remote_files
    if remote_files.contains f.relPath then (acc.1, acc.2 + 1)
    else (f :: acc.1, acc.2)

/-! ## Batch partitioning (lines 114-121) -/

/-- Lines 115 and 119-120:

```
total_batches = (len(files_to_upload) + BATCH_SIZE - 1) // BATCH_SIZE
for i in range(0, len(files_to_upload), BATCH_SIZE):
    batch = files_to_upload[i:i+BATCH_SIZE]
```

Batch `k` (0-based) is the slice starting at offset `k * B` of length at most
`B`; there are `(N + B - 1) / B` of them, exactly the offsets `range(0, N, B)`
visits when `B > 0`. -/
def batches {α : Type} (B : Nat) (l : List α) : List (List α) :=
  (List.range ((l.length + B - 1) / B)).map (fun k => (l.drop (k * B)).take B)

/-! ## Retry loop (lines 129-145) -/

/-- Lines 129-142, one batch's bounded-retry loop:

```
for attempt in range(3):
    try:
        api.create_commit(...)
        break
    except Exception as e:
        print(...)
        time.sleep(5)
else:
    return False
```

The remote `create_commit` is an oracle `Nat → Bool` giving each attempt's
outcome.  `retryFrom oracle attempt remaining` runs the loop from attempt
index `attempt` with `remaining` iterations left and returns
`(succeeded, attempts consumed, sleeps performed)`; the sleep list is ghost
instrumentation recording each `time.sleep(5)`, which the source executes
after every failed attempt (including the last). -/
def retryFrom (oracle : Nat → Bool) (attempt : Nat) : Nat → Bool × Nat × List Nat
  | 0 => (false, 0, [])
  | remaining + 1 =>
    if oracle attempt then (true, 1, [])
    else
      let rest := retryFrom oracle (attempt + 1) remaining
      (rest.1, rest.2.1 + 1, RETRY_DELAY :: rest.2.2)

/-- The full retry loop for one batch: `for attempt in range(3)`. -/
def retryBatch (oracle : Nat → Bool) : Bool × Nat × List Nat :=
  retryFrom oracle 0 MAX_RETRIES

/-! ## Batched committer (lines 119-147) -/

/-- The outer batch loop of `upload_to_huggingface_incremental`
(lines 119-147): process batches in order; a batch whose retry loop fails
hits `return False` immediately (the `for`-`else`), so no later batch is
reached; if every batch commits the function reaches `return True`.

`oracle b a` is the outcome of attempt `a` on batch `b`.  Besides the
boolean the source returns, we record as ghost instrumentation the list of
batches whose `create_commit` succeeded (in order) and the list of batch
indices on which the retry loop was entered at all. -/
def commitFrom (oracle : Nat → Nat → Bool) :
    Nat → List (List LocalFile) → Bool × List (List LocalFile) × List Nat
  | _, [] => (true, [], [])
  | idx, b :: bs =>
    if (retryBatch (oracle idx)).1 then
      let rest := commitFrom oracle (idx + 1) bs
      (rest.1, b :: rest.2.1, idx :: rest.2.2)
    else
      (false, [], [idx])

/-- The committer applied to the whole batch list, starting at batch 0. -/
def commitBatches (oracle : Nat → Nat → Bool) (bs : List (List LocalFile)) :
    Bool × List (List LocalFile) × List Nat :=
  commitFrom oracle 0 bs

/-! ## Filesystem model

`os.walk` visits directories top-down; within a directory the order of the
subdirectory and file name lists is whatever order the operating system
returns (arbitrary and not sorted by `os.walk` itself).  A `DirTree` node
carries exactly that observable data: its file names and named subtrees in
enumeration order.  The walk takes a fuel argument bounding the recursion
depth; every claim below either holds for all fuel values or is evaluated at
a concrete tree with ample fuel, so the fuel never cuts a walk short. -/

/-- A directory: file names and named subdirectories, each list in the order
the operating system enumerates them. -/
inductive DirTree where
  | node (files : List String) (subdirs : List (String × DirTree))

/-- `Path(root) / file` rendering relative to the walk's starting directory:
empty root means the starting directory itself. -/
def joinPath (p f : String) : String := if p = "" then f else p ++ "/" ++ f

/-- `os.walk` with the source's pruning pattern
(`if name in dirs: dirs.remove(name)` before descending, lines 67-69 of
`unified_vqa_processor.py`): yields `(relative dir path, file names)` pairs
top-down, skipping every subdirectory whose name is in `prune` at any level.
Directory entries are unique in a real filesystem, so removal of the single
occurrence is modelled by skipping every matching name. -/
def osWalk (prune : List String) : Nat → String → DirTree → List (String × List String)
  | 0, _, _ => []
  | fuel + 1, path, .node files subdirs =>
    (path, files) ::
      (subdirs.map (fun sd =>
        if prune.contains sd.1 then []
        else osWalk prune fuel (joinPath path sd.1) sd.2)).flatten

/-- All `(dir path, file name)` pairs a pruned walk reaches, in walk order. -/
def allPairs (prune : List String) (fuel : Nat) (path : String) (t : DirTree) :
    List (String × String) :=
  ((osWalk prune fuel path t).map (fun e => e.2.map (fun f => (e.1, f)))).flatten

/-- `dict.get`-style lookup of a named subdirectory
(`CURRENT_DIR / "unified-vqa-images"` existing as a directory). -/
def findSubdir (name : String) (t : DirTree) : Option DirTree :=
  match t with
  | .node _ subdirs => (subdirs.find? (fun sd => sd.1 == name)).map (fun sd => sd.2)

/-! ## Path suffix and classification -/

/-- Index of the last '.' in a list of characters, if any. -/
def lastDotIdx : List Char → Option Nat
  | [] => none
  | c :: cs =>
    match lastDotIdx cs with
    | some i => some (i + 1)
    | none => if c = '.' then some 0 else none

/-- `pathlib.Path(name).suffix`: the extension of the final path component,
dot included; empty when the name has no dot, starts with its only dot
(".gitignore"), or ends in a dot ("a.").  `pathlib` computes
`i = name.rfind('.')` and returns `name[i:]` when `0 < i < len(name) - 1`. -/
def pathSuffix (name : String) : String :=
  match lastDotIdx name.data with
  | none => ""
  | some i => if 0 < i && i + 1 < name.length then String.mk (name.data.drop i) else ""

/-- `pathlib.Path(name).stem`: the final component without its suffix. -/
def pathStem (name : String) : String :=
  String.mk (name.data.take (name.data.length - (pathSuffix name).data.length))

/-- ASCII lowercasing of one character.  Python's `str.lower()` is the full
Unicode lowering, but every string it is applied to here is an ASCII
extension, where the two agree. -/
def charToLower (c : Char) : Char :=
  if 65 ≤ c.toNat && c.toNat ≤ 90 then Char.ofNat (c.toNat + 32) else c

/-- `s.lower()` on the character list of a string. -/
def strToLower (s : String) : String := String.mk (s.data.map charToLower)

/-- `file_path.suffix.lower() in IMAGE_EXTENSIONS` (line 63 and line 73 of
`unified_vqa_processor.py`, line 90 of `unified_vqa_datasets_parquet.py`). -/
def isImageName (f : String) : Bool :=
  IMAGE_EXTENSIONS.contains (strToLower (pathSuffix f))

/-! ## Local inventory scanner (`categorize_files`, lines 49-76 of
`unified_vqa_processor.py`) -/

/-- Lines 58-64: the image scan.  `if images_dir.exists()` guards the walk,
so a missing `unified-vqa-images` directory silently yields no image files.
The walk of the images directory prunes nothing and the files of each
directory are taken in enumeration order (no sorting); a file is kept iff
its lowercased suffix is in the allowlist.  Pairs `(dir path, file name)`
stand for the `Path(root) / file` objects the source appends. -/
def image_files_of (fuel : Nat) (t : DirTree) : List (String × String) :=
  match findSubdir "unified-vqa-images" t with
  | none => []
  | some it =>
    ((osWalk [] fuel "unified-vqa-images" it).map (fun e =>
      (e.2.filter (fun f => isImageName f)).map (fun f => (e.1, f)))).flatten

/-- Lines 66-74: the ancillary scan.  Walks the project root pruning ".git"
and "unified-vqa-images", keeping files whose lowercased suffix is NOT in
the allowlist. -/
def other_files_of (fuel : Nat) (t : DirTree) : List (String × String) :=
  ((osWalk [".git", "unified-vqa-images"] fuel "" t).map (fun e =>
    (e.2.filter (fun f => !isImageName f)).map (fun f => (e.1, f)))).flatten

/-- All pairs the images-directory walk reaches (classification removed):
the candidate pool for the asset sequence. -/
def imagesWalkPairs (fuel : Nat) (t : DirTree) : List (String × String) :=
  match findSubdir "unified-vqa-images" t with
  | none => []
  | some it => allPairs [] fuel "unified-vqa-images" it

/-- All pairs the pruned root walk reaches (classification removed): the
candidate pool for the ancillary sequence. -/
def prunedWalkPairs (fuel : Nat) (t : DirTree) : List (String × String) :=
  allPairs [".git", "unified-vqa-images"] fuel "" t

/-- `categorize_files` (lines 49-76): the two output sequences, as paths
relative to the project root. -/
def categorize_files (fuel : Nat) (t : DirTree) : List String × List String :=
  ((image_files_of fuel t).map (fun pf => joinPath pf.1 pf.2),
   (other_files_of fuel t).map (fun pf => joinPath pf.1 pf.2))

/-! ## Remote state prober (`get_remote_hf_files`, lines 35-47 of
`unified_vqa_processor.py`) -/

/-- Lines 38-47: the probe wraps `api.list_repo_files` in
`try ... except Exception: return set()`.  The remote call's outcome is the
argument: either the listed file paths or any raised exception (carried as
its message).  The set the source builds is modelled as the list of paths;
the planner only tests membership. -/
def get_remote_hf_files (listResult : Except String (List String)) : List String :=
  match listResult with
  | Except.ok files => files
  | Except.error _ => []

/-! ## Parquet scanner (`scan_images`, lines 71-109 of
`unified_vqa_datasets_parquet.py`) -/

/-- A Python annotation value: the schema logic never inspects it, only the
keys, so a small universe of value types suffices to express "regardless of
the actual value type". -/
inductive PyVal where
  | str (s : String)
  | int (n : Int)
  | bool (b : Bool)
deriving DecidableEq

/-- Lexicographic comparison of character lists by code point, the order
Python string comparison uses. -/
def charsLe : List Char → List Char → Bool
  | [], _ => true
  | _ :: _, [] => false
  | a :: as, b :: bs =>
    if a.toNat < b.toNat then true
    else if b.toNat < a.toNat then false
    else charsLe as bs

/-- `a <= b` on strings, by code point. -/
def strLe (a b : String) : Bool := charsLe a.data b.data

/-- Insertion sort with a Boolean comparison: models Python `sorted(files)`
on the file names of one directory (line 89). -/
def insertSorted (x : String) : List String → List String
  | [] => [x]
  | y :: ys => if strLe x y then x :: y :: ys else y :: insertSorted x ys

/-- `sorted(l)` for string lists. -/
def sortStrings (l : List String) : List String := l.foldr insertSorted []

/-- `annotations[image_id]` lookup: the loaded annotation table is a mapping
from image id to a dict of extra fields.  An absent table is the empty
mapping (Python treats both `None` and `{}` as falsy on line 103). -/
def lookupAnn (anns : List (String × List (String × PyVal))) (id : String) :
    Option (List (String × PyVal)) :=
  (anns.find? (fun a => a.1 == id)).map (fun a => a.2)

/-- `d[k] = v` on an insertion-ordered dict: replace in place if the key
exists, else append. -/
def dictSet (d : List (String × PyVal)) (k : String) (v : PyVal) :
    List (String × PyVal) :=
  if d.any (fun x => x.1 == k) then d.map (fun x => if x.1 == k then (k, v) else x)
  else d ++ [(k, v)]

/-- `item.update(extra)` (line 104): set each key of `extra` in order. -/
def dictUpdate (d u : List (String × PyVal)) : List (String × PyVal) :=
  u.foldl (fun d kv => dictSet d kv.1 kv.2) d

/-- Lines 86-107: the data-list construction.

```
for root, _, files in os.walk(images_dir):
    for file in sorted(files):
        if Path(file).suffix.lower() not in IMAGE_EXTENSIONS:
            continue
        item = {"image": str(image_path), "image_id": image_id}
        if annotations and image_id in annotations:
            item.update(annotations[image_id])
        data_list.append(item)
```

Note that only the file names WITHIN each directory are sorted; the
directories themselves arrive in `os.walk`'s (OS enumeration) order. -/
def scan_items (fuel : Nat) (t : DirTree)
    (anns : List (String × List (String × PyVal))) :
    List (List (String × PyVal)) :=
  ((osWalk [] fuel "unified-vqa-images" t).map (fun e =>
    ((sortStrings e.2).filter (fun f => isImageName f)).map (fun f =>
      let base := [("image", PyVal.str (joinPath e.1 f)),
                   ("image_id", PyVal.str (pathStem f))]
      match lookupAnn anns (pathStem f) with
      | some kvs => dictUpdate base kvs
      | none => base))).flatten

/-- `scan_images` (lines 71-109): raises `FileNotFoundError` (line 79) when
`unified-vqa-images` does not exist, before any network interaction; else
returns the scanned data list.  The argument is the images directory if it
exists. -/
def scan_images (imagesDir : Option DirTree) (fuel : Nat)
    (anns : List (String × List (String × PyVal))) :
    Except String (List (List (String × PyVal))) :=
  match imagesDir with
  | none => Except.error "FileNotFoundError"
  | some t => Except.ok (scan_items fuel t anns)

/-! ## Parquet schema construction (`create_parquet_dataset`,
lines 128-140 of `unified_vqa_datasets_parquet.py`) -/

/-- The keys of an item dict, in insertion order. -/
def itemKeys (item : List (String × PyVal)) : List String := item.map Prod.fst

/-- Lines 137-138: `extra_fields = data_list[0].keys() - {"image", "image_id"}`
(guarded by a nonemptiness test that does not change the result). -/
def extra_fields (data_list : List (List (String × PyVal))) : List String :=
  match data_list with
  | [] => []
  | first :: _ =>
    (itemKeys first).filter (fun k => !(k == "image") && !(k == "image_id"))

/-- Lines 128-140: the `Features` dict — the two base fields, then
`features[field] = Value("string")` for each dynamically detected extra
field of the FIRST entry, typed string whatever the value's actual type. -/
def create_parquet_features (data_list : List (List (String × PyVal))) :
    List (String × String) :=
  [("image", "Image"), ("image_id", "string")] ++
    (extra_fields data_list).map (fun k => (k, "string"))

/-! ## Top-level drivers -/

/-- A pipeline component of the drivers' run. -/
inductive Component where
  | assetSync
  | mirrorSync
deriving DecidableEq

/-- `__main__` of `unified_vqa_processor.py` (lines 198-216): run the
incremental Hugging Face upload, then the GitHub sync, and report success
iff both returned True.  The two upload results are arguments (both source
functions return a Bool and do not raise on upload failure); the component
list is ghost instrumentation recording the calls made, in order. -/
def processor_main (hf_result gh_result : Bool) : Bool × List Component :=
  (hf_result && gh_result, [Component.assetSync, Component.mirrorSync])

/-- `__main__` of `unified_vqa_datasets_parquet.py` (lines 269-300): inside
one `try` block, build the parquet dataset (which may raise, e.g.
`FileNotFoundError` from `scan_images`), then upload it (returns a Bool),
then sync GitHub, then report `hf_ok and gh_ok`.  A raise inside the `try`
jumps to the `except` handler: no verdict is computed (`none`) and the
mirror sync never runs. -/
def parquet_main (create_result : Except String Unit) (hf_result gh_result : Bool) :
    Option Bool × List Component :=
  match create_result with
  | Except.error _ => (none, [Component.assetSync])
  | Except.ok _ => (some (hf_result && gh_result), [Component.assetSync, Component.mirrorSync])

/-! ## Concrete inputs used by witnesses and counterexamples -/

/-- A project root with no `unified-vqa-images` directory. -/
def treeNoImages : DirTree := DirTree.node ["README.md"] []

/-- A project root with an image-extension file at top level, outside the
`unified-vqa-images` directory. -/
def treeWithLogo : DirTree :=
  DirTree.node ["logo.png"] [("unified-vqa-images", DirTree.node ["x.jpg"] [])]

/-- An images directory whose subdirectories the OS enumerates as b, a. -/
def imgTreeBA : DirTree :=
  DirTree.node [] [("b", DirTree.node ["y.jpg"] []), ("a", DirTree.node ["x.jpg"] [])]

/-- The same directory contents with the subdirectories enumerated as a, b. -/
def imgTreeAB : DirTree :=
  DirTree.node [] [("a", DirTree.node ["x.jpg"] []), ("b", DirTree.node ["y.jpg"] [])]

/-- Project root around `imgTreeBA`. -/
def rootBA : DirTree := DirTree.node [] [("unified-vqa-images", imgTreeBA)]

/-- Project root around `imgTreeAB`. -/
def rootAB : DirTree := DirTree.node [] [("unified-vqa-images", imgTreeAB)]

/-- Five files to upload: the spec's scenario worklist. -/
def fiveFiles : List LocalFile :=
  [⟨"unified-vqa-images/1.jpg"⟩, ⟨"unified-vqa-images/2.jpg"⟩,
   ⟨"unified-vqa-images/3.jpg"⟩, ⟨"unified-vqa-images/4.jpg"⟩,
   ⟨"unified-vqa-images/5.jpg"⟩]

/-- Batch outcome oracle: batch 0 commits on its first attempt, every other
batch fails every attempt. -/
def oracleOnlyBatch0 : Nat → Nat → Bool := fun b _ => b == 0

/-- A first scanned entry carrying two annotation fields, one of them not a
string. -/
def sampleFirst : List (String × PyVal) :=
  [("image", PyVal.str "unified-vqa-images/a.jpg"), ("image_id", PyVal.str "a"),
   ("question", PyVal.str "what?"), ("answer", PyVal.int 42)]

/-- Later entries, one of which has a field absent from the first entry. -/
def sampleRest : List (List (String × PyVal)) :=
  [[("image", PyVal.str "unified-vqa-images/b.jpg"), ("image_id", PyVal.str "b"),
    ("late_field", PyVal.bool true)]]


/-! # Theorems -/

/-! ## C1: diff planner -/

theorem diffPlan_fst (L : List LocalFile) (R : List String) :
    (diffPlan L R).1 = L.filter (fun f => !(R.contains f.relPath)) := by
  induction L with
  | nil => rfl
  | cons f rest ih =>
    by_cases hm : f.relPath ∈ R
    · simp [diffPlan, hm, List.filter_cons, ih]
    · simp [diffPlan, hm, List.filter_cons, ih]

theorem diffPlan_count (L : List LocalFile) (R : List String) :
    (diffPlan L R).1.length + (diffPlan L R).2 = L.length := by
  induction L with
  | nil => rfl
  | cons f rest ih =>
    by_cases hm : f.relPath ∈ R
    · simp only [diffPlan, List.length_cons]
      simp [hm]
      omega
    · simp only [diffPlan, List.length_cons]
      simp [hm]
      omega

theorem diffPlan_all_remote (L : List LocalFile) (R : List String)
    (h : ∀ f ∈ L, R.contains f.relPath = true) :
    diffPlan L R = ([], L.length) := by
  induction L with
  | nil => rfl
  | cons f rest ih =>
    have hf : R.contains f.relPath = true := h f (List.mem_cons_self f rest)
    have hrest := ih (fun g hg => h g (List.mem_cons_of_mem f hg))
    simp only [diffPlan, hf, if_true, hrest, List.length_cons]

/-- Claim C1 (diff planner correctness): the upload worklist is exactly the
subsequence of the local inventory whose forward-slash relative path is not
in the remote path set, in scan order; the skipped count is the size of the
inventory minus the worklist length; with an empty remote set everything is
uploaded, and when the remote set covers every local path nothing is. -/
theorem diff_planner_correct (L : List LocalFile) (R : List String) :
    (diffPlan L R).1 = L.filter (fun f => !(R.contains f.relPath)) ∧
    (diffPlan L R).2 = L.length - (diffPlan L R).1.length ∧
    diffPlan L [] = (L, 0) ∧
    ((∀ f ∈ L, R.contains f.relPath = true) → diffPlan L R = ([], L.length)) := by
  refine ⟨diffPlan_fst L R, ?_, ?_, diffPlan_all_remote L R⟩
  · have := diffPlan_count L R
    omega
  · have h1 : (diffPlan L []).1 = L := by
      rw [diffPlan_fst]
      simp [List.contains]
    have h2 := diffPlan_count L []
    have h3 : (diffPlan L []).2 = 0 := by
      rw [h1] at h2
      omega
    exact Prod.ext h1 h3

/-- Witness for C1 at a concrete input: a remote set covering the whole
local inventory forces an empty worklist. -/
theorem diff_planner_correct_witness :
    (∀ f ∈ [LocalFile.mk "unified-vqa-images/a.jpg", LocalFile.mk "unified-vqa-images/b.jpg"],
        ["unified-vqa-images/a.jpg", "unified-vqa-images/b.jpg"].contains f.relPath = true) ∧
    diffPlan [LocalFile.mk "unified-vqa-images/a.jpg", LocalFile.mk "unified-vqa-images/b.jpg"]
        ["unified-vqa-images/a.jpg", "unified-vqa-images/b.jpg"] = ([], 2) :=
  ⟨by decide,
   (diff_planner_correct
      [LocalFile.mk "unified-vqa-images/a.jpg", LocalFile.mk "unified-vqa-images/b.jpg"]
      ["unified-vqa-images/a.jpg", "unified-vqa-images/b.jpg"]).2.2.2 (by decide)⟩

/-! ## C2: batch partitioning -/

theorem batches_nil {α : Type} (B : Nat) : batches B ([] : List α) = [] := by
  unfold batches
  have h : (([] : List α).length + B - 1) / B = 0 := by
    cases B with
    | zero => simp
    | succ b =>
      have h1 : ([] : List α).length + (b + 1) - 1 = b := by simp
      rw [h1]
      exact Nat.div_eq_of_lt (Nat.lt_succ_self b)
  rw [h]
  rfl

theorem ceil_count_step (B n : Nat) (hB : 0 < B) (hn : 0 < n) :
    (n + B - 1) / B = (n - B + B - 1) / B + 1 := by
  have key : (n + B - 1) / B = (n - 1) / B + 1 := by
    have h3 : n + B - 1 = (n - 1) + 1 * B := by omega
    rw [h3, Nat.add_mul_div_right _ _ hB]
  rw [key]
  rcases Nat.lt_or_ge n B with h | h
  · have h1 : n - B + B - 1 = B - 1 := by omega
    rw [h1, Nat.div_eq_of_lt (by omega), Nat.div_eq_of_lt (by omega)]
  · have h1 : n - B + B - 1 = n - 1 := by omega
    rw [h1]

theorem batches_cons {α : Type} (B : Nat) (hB : 0 < B) (l : List α) (hl : l ≠ []) :
    batches B l = l.take B :: batches B (l.drop B) := by
  unfold batches
  have hn : 0 < l.length := List.length_pos.mpr hl
  have hcount : (l.length + B - 1) / B = ((l.drop B).length + B - 1) / B + 1 := by
    rw [List.length_drop]
    exact ceil_count_step B l.length hB hn
  rw [hcount, List.range_succ_eq_map, List.map_cons]
  congr 1
  · simp
  · rw [List.map_map]
    congr 1
    funext k
    simp only [Function.comp_apply]
    rw [List.drop_drop, Nat.succ_mul, Nat.add_comm (k * B) B]

theorem batches_flatten {α : Type} (B : Nat) (hB : 0 < B) (l : List α) :
    (batches B l).flatten = l := by
  rcases eq_or_ne l [] with h | h
  · subst h
    rw [batches_nil]
    rfl
  · rw [batches_cons B hB l h, List.flatten_cons, batches_flatten B hB (l.drop B),
      List.take_append_drop]
termination_by l.length
decreasing_by
  rw [List.length_drop]
  exact Nat.sub_lt (List.length_pos.mpr h) hB

theorem batches_length {α : Type} (B : Nat) (l : List α) :
    (batches B l).length = (l.length + B - 1) / B := by
  unfold batches
  rw [List.length_map, List.length_range]

theorem batches_size_le {α : Type} (B : Nat) (l : List α) :
    ∀ b ∈ batches B l, b.length ≤ B := by
  intro b hb
  unfold batches at hb
  rw [List.mem_map] at hb
  obtain ⟨k, _, rfl⟩ := hb
  rw [List.length_take]
  exact min_le_left _ _

theorem batches_dropLast_size {α : Type} (B : Nat) (hB : 0 < B) (l : List α) :
    ∀ b ∈ (batches B l).dropLast, b.length = B := by
  intro b hb
  rcases eq_or_ne l [] with h | h
  · rw [h, batches_nil] at hb
    simp at hb
  · rw [batches_cons B hB l h] at hb
    rcases eq_or_ne (batches B (l.drop B)) [] with hrest | hrest
    · rw [hrest] at hb
      simp at hb
    · rw [List.dropLast_cons_of_ne_nil hrest] at hb
      rcases List.mem_cons.mp hb with rfl | hb2
      · have hd : l.drop B ≠ [] := by
          intro hcon
          rw [hcon, batches_nil] at hrest
          exact hrest rfl
        have hlen : B < l.length := by
          by_contra hcon
          push_neg at hcon
          exact hd (List.drop_eq_nil_of_le hcon)
        rw [List.length_take]
        omega
      · exact batches_dropLast_size B hB (l.drop B) b hb2
termination_by l.length
decreasing_by
  rw [List.length_drop]
  exact Nat.sub_lt (List.length_pos.mpr h) hB

/-- Claim C2 (batch partitioning): for every worklist, the committer's
batches number `(N + BATCH_SIZE - 1) / BATCH_SIZE` (the ceiling of
N / BATCH_SIZE, and the `total_batches` the source computes), every batch
except possibly the last has exactly BATCH_SIZE entries, every batch has at
most BATCH_SIZE entries, and concatenating the batches in order gives back
the worklist. -/
theorem batch_partitioning (l : List LocalFile) :
    (batches BATCH_SIZE l).length = (l.length + BATCH_SIZE - 1) / BATCH_SIZE ∧
    ((batches BATCH_SIZE l).dropLast.all (fun b => b.length == BATCH_SIZE)) = true ∧
    ((batches BATCH_SIZE l).all (fun b => decide (b.length ≤ BATCH_SIZE))) = true ∧
    (batches BATCH_SIZE l).flatten = l := by
  have hB : 0 < BATCH_SIZE := by decide
  refine ⟨batches_length BATCH_SIZE l, ?_, ?_, batches_flatten BATCH_SIZE hB l⟩
  · rw [List.all_eq_true]
    intro b hb
    simpa using batches_dropLast_size BATCH_SIZE hB l b hb
  · rw [List.all_eq_true]
    intro b hb
    simpa using batches_size_le BATCH_SIZE l b hb

/-! ## C3: retry bound -/

theorem retryFrom_all_fail (oracle : Nat → Bool) (a r : Nat)
    (h : ∀ j, j < r → oracle (a + j) = false) :
    retryFrom oracle a r = (false, r, List.replicate r RETRY_DELAY) := by
  induction r generalizing a with
  | zero => rfl
  | succ n ih =>
    have h0 : oracle a = false := by simpa using h 0 (Nat.succ_pos n)
    have hrec : retryFrom oracle (a + 1) n = (false, n, List.replicate n RETRY_DELAY) := by
      refine ih (a + 1) (fun j hj => ?_)
      have := h (j + 1) (by omega)
      rwa [show a + (j + 1) = a + 1 + j by omega] at this
    simp [retryFrom, h0, hrec, List.replicate_succ]

theorem retryFrom_first_success (oracle : Nat → Bool) (k : Nat) :
    ∀ (a r : Nat), k < r → oracle (a + k) = true →
    (∀ j, j < k → oracle (a + j) = false) →
    retryFrom oracle a r = (true, k + 1, List.replicate k RETRY_DELAY) := by
  induction k with
  | zero =>
    intro a r hk hsucc _
    cases r with
    | zero => omega
    | succ n => simp [retryFrom, show oracle a = true by simpa using hsucc]
  | succ m ih =>
    intro a r hk hsucc hfail
    cases r with
    | zero => omega
    | succ n =>
      have h0 : oracle a = false := by simpa using hfail 0 (Nat.succ_pos m)
      have hrec : retryFrom oracle (a + 1) n = (true, m + 1, List.replicate m RETRY_DELAY) := by
        refine ih (a + 1) n (by omega) ?_ (fun j hj => ?_)
        · rwa [show a + 1 + m = a + (m + 1) by omega]
        · have := hfail (j + 1) (by omega)
          rwa [show a + (j + 1) = a + 1 + j by omega] at this
      simp [retryFrom, h0, hrec, List.replicate_succ]

/-- Claim C3 (retry bound): a batch whose commit attempt always fails is
attempted exactly MAX_RETRIES = 3 times, sleeping the fixed RETRY_DELAY = 5
between consecutive attempts, and the loop reports failure (the source's
`return False`, which halts the pipeline); a batch whose k-th attempt
succeeds (1-based, k ≤ 3) consumes exactly k attempts and no more, with the
fixed delay between each pair of consecutive attempts. -/
theorem retry_bound (oracle : Nat → Bool) (k : Nat) :
    ((∀ a, a < MAX_RETRIES → oracle a = false) →
      retryBatch oracle = (false, MAX_RETRIES, List.replicate MAX_RETRIES RETRY_DELAY)) ∧
    (0 < k → k ≤ MAX_RETRIES → oracle (k - 1) = true →
      (∀ j, j < k - 1 → oracle j = false) →
      retryBatch oracle = (true, k, List.replicate (k - 1) RETRY_DELAY)) := by
  constructor
  · intro h
    unfold retryBatch
    exact retryFrom_all_fail oracle 0 MAX_RETRIES (fun j hj => by simpa using h j hj)
  · intro hk1 hk2 hs hf
    unfold retryBatch
    have hr := retryFrom_first_success oracle (k - 1) 0 MAX_RETRIES (by omega)
      (by simpa using hs) (fun j hj => by simpa using hf j hj)
    rw [hr, Nat.sub_add_cancel hk1]

/-- Witness for C3 at a concrete oracle: first attempt fails, second
succeeds, so exactly 2 attempts are consumed with one 5-unit sleep between
them; and the all-fail oracle consumes exactly 3 attempts and fails. -/
theorem retry_bound_witness :
    retryBatch (fun a => a == 1) = (true, 2, List.replicate 1 RETRY_DELAY) ∧
    retryBatch (fun _ => false) = (false, MAX_RETRIES, List.replicate MAX_RETRIES RETRY_DELAY) :=
  ⟨(retry_bound (fun a => a == 1) 2).2 (by decide) (by decide) (by decide)
      (fun j hj => by
        have : j = 0 := by omega
        subst this
        decide),
   (retry_bound (fun _ => false) 0).1 (fun a _ => rfl)⟩

/-! ## C4: halt on terminal failure -/

theorem commitFrom_halt (oracle : Nat → Nat → Bool) (bs : List (List LocalFile)) :
    ∀ (idx j : Nat), j < bs.length →
    (retryBatch (oracle (idx + j))).1 = false →
    (∀ i, i < j → (retryBatch (oracle (idx + i))).1 = true) →
    commitFrom oracle idx bs =
      (false, bs.take j, (List.range (j + 1)).map (fun i => idx + i)) := by
  induction bs with
  | nil =>
    intro idx j hj _ _
    simp at hj
  | cons b rest ih =>
    intro idx j hj hfail hok
    cases j with
    | zero =>
      have h0 : (retryBatch (oracle idx)).1 = false := by simpa using hfail
      simp [commitFrom, h0, List.range_succ]
    | succ m =>
      have h0 : (retryBatch (oracle idx)).1 = true := by simpa using hok 0 (Nat.succ_pos m)
      have hrec : commitFrom oracle (idx + 1) rest =
          (false, rest.take m, (List.range (m + 1)).map (fun i => idx + 1 + i)) := by
        refine ih (idx + 1) m (by simpa using hj) ?_ (fun i hi => ?_)
        · have := hfail
          rwa [show idx + (m + 1) = idx + 1 + m by omega] at this
        · have := hok (i + 1) (by omega)
          rwa [show idx + (i + 1) = idx + 1 + i by omega] at this
      have hrange : (List.range (m + 1 + 1)).map (fun i => idx + i) =
          idx :: (List.range (m + 1)).map (fun i => idx + 1 + i) := by
        rw [List.range_succ_eq_map, List.map_cons, List.map_map]
        have hfun : ((fun i => idx + i) ∘ Nat.succ) = (fun i => idx + 1 + i) := by
          funext i
          simp only [Function.comp_apply]
          omega
        rw [hfun, Nat.add_zero]
      simp only [commitFrom, h0, if_true, hrec, List.take_succ_cons, hrange]

/-- Claim C4 (halt on terminal failure): for every worklist, every positive
batch size, and every per-batch per-attempt outcome oracle, if batch `j` of
the partition fails all MAX_RETRIES attempts while every earlier batch's
retry loop succeeds, then the committer returns failure, the committed
batches are exactly the batches preceding `j`, and the retry loop is entered
only on batches 0..j — no batch after the failed one is ever attempted. -/
theorem halt_on_terminal_failure (oracle : Nat → Nat → Bool) (B : Nat) (l : List LocalFile)
    (j : Nat) (hj : j < (batches B l).length)
    (hfail : ∀ a, a < MAX_RETRIES → oracle j a = false)
    (hok : ∀ i, i < j → (retryBatch (oracle i)).1 = true) :
    commitBatches oracle (batches B l) =
      (false, (batches B l).take j, List.range (j + 1)) := by
  unfold commitBatches
  have hf : (retryBatch (oracle (0 + j))).1 = false := by
    rw [Nat.zero_add]
    unfold retryBatch
    rw [retryFrom_all_fail (oracle j) 0 MAX_RETRIES (fun a ha => by simpa using hfail a ha)]
  rw [commitFrom_halt oracle (batches B l) 0 j hj hf (fun i hi => by simpa using hok i hi)]
  simp

/-- Witness for C4: the spec's scenario — batch size 2, five files, so
batches of sizes 2, 2, 1; batch 1 (the second batch) fails every attempt
while batch 0 commits; the run returns failure, only the first batch is
committed, and the third batch is never attempted. -/
theorem halt_on_terminal_failure_witness :
    1 < (batches 2 fiveFiles).length ∧
    commitBatches oracleOnlyBatch0 (batches 2 fiveFiles) =
      (false, [[⟨"unified-vqa-images/1.jpg"⟩, ⟨"unified-vqa-images/2.jpg"⟩]], [0, 1]) := by
  refine ⟨by decide, ?_⟩
  rw [halt_on_terminal_failure oracleOnlyBatch0 2 fiveFiles 1 (by decide)
    (fun a _ => rfl)
    (fun i hi => by
      have : i = 0 := by omega
      subst this
      decide)]
  decide

/-! ## C5: missing images directory -/

/-- Counterexample to C5 as stated: a run of `categorize_files` on a project
root with no `unified-vqa-images` directory signals nothing — the function
is total — and silently yields an empty asset inventory, while the claim
says every scanner signals a NotFound error and never silently produces an
empty set. -/
theorem c5_counterexample_silent_empty :
    (findSubdir "unified-vqa-images" treeNoImages).isNone = true ∧
    categorize_files 5 treeNoImages = ([], ["README.md"]) := by
  constructor
  · rfl
  · decide

/-- Claim C5 as amended: the parquet scanner `scan_images` signals a
FileNotFoundError when the required images directory does not exist (and
this happens before any network call — the raise is inside the local scan,
ahead of every upload step, as `parquet_main` below also shows); the
processor's `categorize_files`, by contrast, silently returns an empty
asset sequence in that situation. -/
theorem c5_amended_notfound (fuel : Nat) (anns : List (String × List (String × PyVal)))
    (t : DirTree) (h : findSubdir "unified-vqa-images" t = none) :
    scan_images none fuel anns = Except.error "FileNotFoundError" ∧
    (categorize_files fuel t).1 = [] := by
  constructor
  · rfl
  · unfold categorize_files image_files_of
    rw [h]
    rfl

/-- Witness for C5 (amended) at the concrete rootless tree. -/
theorem c5_amended_notfound_witness :
    scan_images none 5 [] = Except.error "FileNotFoundError" ∧
    (categorize_files 5 treeNoImages).1 = [] :=
  ⟨(c5_amended_notfound 5 [] treeNoImages rfl).1,
   (c5_amended_notfound 5 [] treeNoImages rfl).2⟩

/-! ## C6: traversal order -/

/-- Claim C6 is a code bug: `imgTreeBA` and `imgTreeAB` contain exactly the
same files (mutual containment of their walk pairs) and differ only in the
order the operating system enumerates the two subdirectories, yet
`scan_images`' data list (which sorts only the file names within each
directory, not the directories) and `categorize_files`' asset sequence
(which sorts nothing) both come out in different orders — the output
depends on the enumeration order, not only on the set of files present,
contradicting the required deterministic lexicographic traversal and the
source's own "sorting guarantees reproducibility" comment. -/
theorem c6_enumeration_dependent :
    ((allPairs [] 5 "unified-vqa-images" imgTreeBA).all
      (fun pf => decide (pf ∈ allPairs [] 5 "unified-vqa-images" imgTreeAB))) = true ∧
    ((allPairs [] 5 "unified-vqa-images" imgTreeAB).all
      (fun pf => decide (pf ∈ allPairs [] 5 "unified-vqa-images" imgTreeBA))) = true ∧
    scan_items 5 imgTreeBA [] ≠ scan_items 5 imgTreeAB [] ∧
    (categorize_files 5 rootBA).1 ≠ (categorize_files 5 rootAB).1 := by
  refine ⟨by decide, by decide, by decide, by decide⟩

/-! ## C7: fail-open remote probe -/

/-- Claim C7 (fail-open remote probe): on any remote failure (network or
auth, carried as the raised exception's message) the prober returns the
empty set instead of propagating the error; and on every outcome whatsoever
it returns a value — either the listed paths or the empty set — so the
probe never aborts the pipeline. -/
theorem fail_open_remote_probe (e : String) (r : Except String (List String)) :
    get_remote_hf_files (Except.error e) = [] ∧
    (get_remote_hf_files r = [] ∨
      ∃ files, r = Except.ok files ∧ get_remote_hf_files r = files) := by
  constructor
  · rfl
  · cases r with
    | ok files => exact Or.inr ⟨files, rfl, rfl⟩
    | error msg => exact Or.inl rfl

/-! ## C8: scanner partition -/

theorem mem_filtered_pairs (L : List (String × List String)) (p : String → Bool)
    (pf : String × String) :
    (pf ∈ (L.map (fun e => (e.2.filter p).map (fun f => (e.1, f)))).flatten) ↔
      (pf ∈ (L.map (fun e => e.2.map (fun f => (e.1, f)))).flatten ∧ p pf.2 = true) := by
  induction L with
  | nil => simp
  | cons e rest ih =>
    simp only [List.map_cons, List.flatten_cons, List.mem_append, ih, List.mem_map,
      List.mem_filter]
    constructor
    · rintro (⟨f, ⟨hf, hp⟩, rfl⟩ | ⟨h1, h2⟩)
      · exact ⟨Or.inl ⟨f, hf, rfl⟩, hp⟩
      · exact ⟨Or.inr h1, h2⟩
    · rintro ⟨⟨f, hf, rfl⟩ | h1, h2⟩
      · exact Or.inl ⟨f, ⟨hf, h2⟩, rfl⟩
      · exact Or.inr ⟨h1, h2⟩

theorem mem_image_files_of (fuel : Nat) (t : DirTree) (pf : String × String) :
    pf ∈ image_files_of fuel t ↔
      (pf ∈ imagesWalkPairs fuel t ∧ isImageName pf.2 = true) := by
  unfold image_files_of imagesWalkPairs
  cases h : findSubdir "unified-vqa-images" t with
  | none => simp
  | some it =>
    unfold allPairs
    exact mem_filtered_pairs _ _ _

theorem mem_other_files_of (fuel : Nat) (t : DirTree) (pf : String × String) :
    pf ∈ other_files_of fuel t ↔
      (pf ∈ prunedWalkPairs fuel t ∧ isImageName pf.2 = false) := by
  unfold other_files_of prunedWalkPairs allPairs
  rw [mem_filtered_pairs]
  simp only [Bool.not_eq_true']

/-- Counterexample to C8 as stated: "logo.png" sits at the project root —
reached by the pruned walk, outside every excluded directory — and its
extension is in the image allowlist, so the claim requires it to appear in
the asset sequence; in fact it appears in neither output sequence of
`categorize_files`. -/
theorem c8_counterexample_asset_outside_dir :
    ("", "logo.png") ∈ prunedWalkPairs 5 treeWithLogo ∧
    isImageName "logo.png" = true ∧
    ("", "logo.png") ∉ image_files_of 5 treeWithLogo ∧
    ("", "logo.png") ∉ other_files_of 5 treeWithLogo := by
  refine ⟨by decide, by decide, by decide, by decide⟩

/-- Claim C8 as amended: the two sequences are disjoint; every asset entry
has an allowlisted extension and every ancillary entry a non-allowlisted
one; the asset sequence holds exactly the files reached under the
`unified-vqa-images` directory whose extension is allowlisted; the
ancillary sequence holds exactly the files reached by the pruned root walk
(excluding ".git" and the assets directory) whose extension is NOT
allowlisted; and a file with an allowlisted extension lying outside the
assets directory's walk appears in neither sequence. -/
theorem c8_amended_partition (fuel : Nat) (t : DirTree) (pf : String × String) :
    (pf ∈ image_files_of fuel t → isImageName pf.2 = true) ∧
    (pf ∈ other_files_of fuel t → isImageName pf.2 = false) ∧
    (pf ∈ image_files_of fuel t → pf ∉ other_files_of fuel t) ∧
    (pf ∈ image_files_of fuel t ↔
      (pf ∈ imagesWalkPairs fuel t ∧ isImageName pf.2 = true)) ∧
    (pf ∈ other_files_of fuel t ↔
      (pf ∈ prunedWalkPairs fuel t ∧ isImageName pf.2 = false)) ∧
    (pf ∉ imagesWalkPairs fuel t → isImageName pf.2 = true →
      (pf ∉ image_files_of fuel t ∧ pf ∉ other_files_of fuel t)) := by
  have him := mem_image_files_of fuel t pf
  have hot := mem_other_files_of fuel t pf
  refine ⟨fun h => (him.mp h).2, fun h => (hot.mp h).2, ?_, him, hot, ?_⟩
  · intro h1 h2
    have e1 : isImageName pf.2 = true := (him.mp h1).2
    have e2 : isImageName pf.2 = false := (hot.mp h2).2
    rw [e1] at e2
    simp at e2
  · intro hout himg
    constructor
    · intro h
      exact hout (him.mp h).1
    · intro h
      have e2 : isImageName pf.2 = false := (hot.mp h).2
      rw [himg] at e2
      simp at e2

/-- Witness for C8 (amended): "logo.png" is outside the assets walk and has
an allowlisted extension, so the amended claim puts it in neither
sequence. -/
theorem c8_amended_partition_witness :
    ("", "logo.png") ∉ image_files_of 5 treeWithLogo ∧
    ("", "logo.png") ∉ other_files_of 5 treeWithLogo :=
  (c8_amended_partition 5 treeWithLogo ("", "logo.png")).2.2.2.2.2 (by decide) (by decide)

/-! ## C9: driver aggregation -/

/-- Counterexample to C9 as stated: in the parquet driver a run whose
packaging step raises (asset-pipeline failure, e.g. the images directory is
missing) never reaches the mirror sync — the exception jumps straight to
the handler — and no overall verdict is computed, while the claim says the
mirror sync runs to completion on every run. -/
theorem c9_counterexample_mirror_not_run :
    Component.mirrorSync ∉ (parquet_main (Except.error "FileNotFoundError") true true).2 ∧
    (parquet_main (Except.error "FileNotFoundError") true true).1 = none := by
  refine ⟨by decide, rfl⟩

/-- Claim C9 as amended: the processor driver always runs both components
and reports success iff both succeeded; the parquet driver does the same
whenever the packaging step returns normally (in particular a mere upload
failure does not suppress the mirror sync), but when packaging raises, the
mirror sync is not run and no overall verdict is reported. -/
theorem c9_amended_aggregation (hf gh : Bool) (cr : Except String Unit) :
    processor_main hf gh = (hf && gh, [Component.assetSync, Component.mirrorSync]) ∧
    ((∃ u, cr = Except.ok u) →
      parquet_main cr hf gh = (some (hf && gh), [Component.assetSync, Component.mirrorSync])) ∧
    ((∃ e, cr = Except.error e) →
      parquet_main cr hf gh = (none, [Component.assetSync])) := by
  refine ⟨rfl, ?_, ?_⟩
  · rintro ⟨u, rfl⟩
    rfl
  · rintro ⟨e, rfl⟩
    rfl

/-- Witness for C9 (amended): with a failed asset upload and a successful
packaging step, the parquet driver still runs the mirror sync and reports
overall failure; same for the processor driver. -/
theorem c9_amended_aggregation_witness :
    processor_main false true = (false, [Component.assetSync, Component.mirrorSync]) ∧
    parquet_main (Except.ok ()) false true =
      (some false, [Component.assetSync, Component.mirrorSync]) :=
  ⟨(c9_amended_aggregation false true (Except.ok ())).1,
   (c9_amended_aggregation false true (Except.ok ())).2.1 ⟨(), rfl⟩⟩

/-! ## C10: parquet schema typing -/

/-- Claim C10 (annotation schema string-typing): for every non-empty data
list, the dynamically detected extra fields are exactly the keys of the
FIRST entry beyond image and image_id; every such field enters the schema
with string type, whatever the actual type of its value; and a key absent
from the first entry (even if present in later entries) is not a field of
the schema. -/
theorem c10_schema_string_typing (first : List (String × PyVal))
    (rest : List (List (String × PyVal))) (k : String) :
    (k ∈ extra_fields (first :: rest) ↔
      (k ∈ itemKeys first ∧ k ≠ "image" ∧ k ≠ "image_id")) ∧
    (k ∈ extra_fields (first :: rest) →
      (k, "string") ∈ create_parquet_features (first :: rest)) ∧
    (k ∉ itemKeys first → k ≠ "image" → k ≠ "image_id" →
      k ∉ (create_parquet_features (first :: rest)).map Prod.fst) := by
  refine ⟨?_, ?_, ?_⟩
  · unfold extra_fields
    rw [List.mem_filter]
    simp
  · intro hk
    unfold create_parquet_features
    rw [List.mem_append]
    right
    rw [List.mem_map]
    exact ⟨k, hk, rfl⟩
  · intro h1 h2 h3 hmem
    unfold create_parquet_features at hmem
    rw [List.map_append, List.mem_append] at hmem
    rcases hmem with hbase | hextra
    · simp at hbase
      rcases hbase with rfl | rfl
      · exact h2 rfl
      · exact h3 rfl
    · rw [List.map_map, List.mem_map] at hextra
      obtain ⟨k2, hk2, he⟩ := hextra
      simp only [Function.comp_apply] at he
      subst he
      unfold extra_fields at hk2
      rw [List.mem_filter] at hk2
      exact h1 hk2.1

/-- Witness for C10: in a concrete data list, "answer" (whose value is an
integer) is schema-typed string, and "late_field" (present only in the
second entry) is not a schema field at all. -/
theorem c10_schema_string_typing_witness :
    ("answer", "string") ∈ create_parquet_features (sampleFirst :: sampleRest) ∧
    "late_field" ∉ (create_parquet_features (sampleFirst :: sampleRest)).map Prod.fst :=
  ⟨(c10_schema_string_typing sampleFirst sampleRest "answer").2.1 (by decide),
   (c10_schema_string_typing sampleFirst sampleRest "late_field").2.2 (by decide)
     (by decide) (by decide)⟩
